import Mathlib

/-!
Verification of the vosk/flask speech-to-text service (`app.py`).

The development shallowly embeds the pipeline of `app.py`:
text assembly (lines 100-101), the streaming recognition loop
(lines 86-97), the format envelope checks (lines 75-80), the ffmpeg
normalizer with its temp-file cleanup (lines 41-65), the `stt`
request handler (lines 122-205), the `health` endpoint (lines
112-120) and the cpu-percent estimate (lines 174-177).

Strings are modelled as lists of characters; the handful of Python
string operations the code uses (`str.strip`, `str.split()` with no
arguments, `" ".join`) are translated directly.
-/

namespace AsrApp

/-- Python strings, modelled as lists of characters. -/
abbrev Str := List Char

/-- The whitespace characters recognised by Python's default
`str.strip()` / `str.split()` (restricted to the ASCII range). -/
def pySpace (c : Char) : Bool :=
  c == ' ' || c == '\t' || c == '\n' || c == '\r' || c == '\x0b' || c == '\x0c'

/-- Remove leading whitespace, as the left half of Python `str.strip()`. -/
def stripL (s : Str) : Str := s.dropWhile pySpace

/-- Remove trailing whitespace, as the right half of Python `str.strip()`. -/
def stripR (s : Str) : Str := (s.reverse.dropWhile pySpace).reverse

/-- Python `str.strip()` with no arguments. -/
def pyStrip (s : Str) : Str := stripR (stripL s)

/-- Python `str.split()` with no arguments: maximal runs of
non-whitespace characters, with no empty words. -/
def splitWs : Str → List Str
  | [] => []
  | c :: cs =>
    if pySpace c then splitWs (cs.dropWhile pySpace)
    else (c :: cs.takeWhile (fun x => !pySpace x)) ::
      splitWs (cs.dropWhile (fun x => !pySpace x))
termination_by l => l.length
decreasing_by
  all_goals simp_wf
  all_goals first
    | exact Nat.lt_succ_of_le ((List.dropWhile_sublist _).length_le)
    | exact Nat.lt_succ_self _

/-- Python `" ".join(ws)`: words joined by single space characters. -/
def joinSp : List Str → Str
  | [] => []
  | [w] => w
  | w :: ws => w ++ ' ' :: joinSp ws

/-- Text assembly of `recognize_wav_bytes` (app.py lines 100-101):
`text = " ".join([t.strip() for t in result_text if t.strip()])`
followed by `text = " ".join(text.split())`. -/
def assembleText (result_text : List Str) : Str :=
  let text := joinSp ((result_text.map pyStrip).filter (fun t => !t.isEmpty))
  joinSp (splitWs text)

/-- Collapse every maximal run of whitespace to one space character. -/
def collapseRuns : Str → Str
  | [] => []
  | c :: cs =>
    if pySpace c then ' ' :: collapseRuns (cs.dropWhile pySpace)
    else c :: collapseRuns cs
termination_by l => l.length
decreasing_by
  all_goals simp_wf
  all_goals first
    | exact Nat.lt_succ_of_le ((List.dropWhile_sublist _).length_le)
    | exact Nat.lt_succ_self _

/-- The spec's description of whitespace normalization: collapse any
run of whitespace to a single space, then trim leading and trailing
whitespace. -/
def specNormalize (s : Str) : Str := pyStrip (collapseRuns s)

/-- The spec's description of text assembly: the non-empty trimmed
segment texts concatenated in order separated by a single space, then
whitespace-normalized. -/
def specAssemble (segs : List Str) : Str :=
  specNormalize (joinSp ((segs.map pyStrip).filter (fun t => !t.isEmpty)))

/-- Constant `MAX_FILE_MB = 25` (app.py line 21). -/
def MAX_FILE_MB : Nat := 25

/-- Configured limit `MAX_FILE_MB * 1024 * 1024` stored in
the app config as the maximum content length (app.py line 29). -/
def MAX_CONTENT_LENGTH : Nat := MAX_FILE_MB * 1024 * 1024

/-- Constant `SAMPLE_RATE = 16000` (app.py line 20). -/
def SAMPLE_RATE : Nat := 16000

/-- Constant `FRAMES_PER_CHUNK = 4000` (app.py line 22). -/
def FRAMES_PER_CHUNK : Nat := 4000

/-- The cpu-usage estimate of the `stt` handler (app.py lines
174-177): `0.0` unless `wall_ms > 0`, else
`min(100.0, max(0.0, (cpu_time_ms / wall_ms) * 100.0 / num_cpus))`.
`wall_ms` is a difference of monotonic-clock readings and hence a
natural number. -/
def cpu_percent_est (cpu_time_ms : ℤ) (wall_ms : ℕ) (num_cpus : ℕ) : ℚ :=
  if 0 < wall_ms then
    min 100 (max 0 ((cpu_time_ms : ℚ) / (wall_ms : ℚ) * 100 / (num_cpus : ℚ)))
  else 0

/-- One chunk-worth of engine behaviour inside the streaming loop:
whether `rec.AcceptWaveform(data)` returned true for this chunk, and
the `"text"` field of `rec.Result()` at that point. -/
structure EngineStep where
  accepted : Bool
  text : Str
deriving DecidableEq, Repr

/-- Observable events of the streaming loop: a chunk submitted to the
engine, a boundary result appended to `result_text`, the single
`rec.FinalResult()` call, and the final text appended. -/
inductive REvent
  | submitChunk
  | appendSeg (t : Str)
  | finalCall
  | appendFinal (t : Str)
deriving DecidableEq, Repr

/-- The streaming loop of `recognize_wav_bytes` (app.py lines 86-97):
read chunks until the stream is exhausted, appending
`json.loads(rec.Result()).get("text", "")` whenever `AcceptWaveform`
signals a boundary and that text is non-empty, then one
`rec.FinalResult()` call whose text is appended if non-empty.
Returns the event trace and the accumulated `result_text` list. -/
def recLoop : List EngineStep → Str → List REvent × List Str
  | [], finalText =>
    (REvent.finalCall ::
      (if finalText.isEmpty then [] else [REvent.appendFinal finalText]),
     if finalText.isEmpty then [] else [finalText])
  | c :: rest, finalText =>
    let r := recLoop rest finalText
    if c.accepted && !c.text.isEmpty then
      (REvent.submitChunk :: REvent.appendSeg c.text :: r.1, c.text :: r.2)
    else
      (REvent.submitChunk :: r.1, r.2)

/-- Number of chunk submissions in an event trace. -/
def countSubmits : List REvent → Nat
  | [] => 0
  | REvent.submitChunk :: es => countSubmits es + 1
  | _ :: es => countSubmits es

/-- The parsed wave file handed to the recognition part of
`recognize_wav_bytes`, together with the engine's behaviour on its
chunks (the engine is an external black box, so its responses are
inputs of the model). -/
structure WavFile where
  nchannels : Nat
  sampwidth : Nat
  framerate : Nat
  nframes : Nat
  chunks : List EngineStep
  finalText : Str
deriving DecidableEq, Repr

/-- Which envelope check of app.py lines 75-80 failed. -/
inductive FormatViolation
  | notMono
  | notS16
  | wrongRate
deriving DecidableEq, Repr

/-- The Prop stating that the attribute named by a `FormatViolation`
really differs from its expected value. -/
def violatedAttr : FormatViolation → WavFile → Prop
  | .notMono, w => w.nchannels ≠ 1
  | .notS16, w => w.sampwidth ≠ 2
  | .wrongRate, w => w.framerate ≠ SAMPLE_RATE

/-- Errors `recognize_wav_bytes` can raise: `wave.Error` from
`wave.open`, or a `ValueError` from one of the envelope checks. -/
inductive RecogErr
  | waveParse
  | formatErr (v : FormatViolation)
deriving DecidableEq, Repr

/-- The `{"text": ..., "seconds": ...}` dictionary returned by
`recognize_wav_bytes` (app.py line 104). -/
structure PipeResult where
  text : Str
  seconds : ℚ
deriving DecidableEq, Repr

/-- What `wave.open` does on the bytes produced by the decoder:
either it raises `wave.Error`, or it yields a parsed wave file. -/
inductive WavParse
  | parseErr
  | ok (w : WavFile)
deriving DecidableEq, Repr

/-- Result of `recognize_wav_bytes`: an error or a `PipeResult`. -/
inductive RecogRes
  | err (e : RecogErr)
  | ok (r : PipeResult)
deriving DecidableEq, Repr

/-- Function `recognize_wav_bytes` (app.py lines 68-104). The second component
records whether the `KaldiRecognizer` was instantiated and fed audio
(app.py line 82 onwards). -/
def recognize_wav_bytes (p : WavParse) : RecogRes × Bool :=
  match p with
  | .parseErr => (.err .waveParse, false)
  | .ok w =>
    if w.nchannels ≠ 1 then (.err (.formatErr .notMono), false)
    else if w.sampwidth ≠ 2 then (.err (.formatErr .notS16), false)
    else if w.framerate ≠ SAMPLE_RATE then (.err (.formatErr .wrongRate), false)
    else
      let segs := (recLoop w.chunks w.finalText).2
      (.ok ⟨assembleText segs, (w.nframes : ℚ) / (w.framerate : ℚ)⟩, true)

/-- The process environment: whether `shutil.which("ffmpeg")` finds
the decoder executable. -/
structure Env where
  ffmpegAvailable : Bool
deriving DecidableEq, Repr

/-- Function `ffmpeg_available` (app.py lines 36-38). -/
def ffmpeg_available (env : Env) : Bool := env.ffmpegAvailable

/-- Existence of the two temporary files `to_wav_mono16k` works with:
the written input file and the decoder's output file. -/
structure FsState where
  inFileExists : Bool
  outFileExists : Bool
deriving DecidableEq, Repr

/-- No temporary file exists before the call. -/
def FsState.start : FsState := ⟨false, false⟩

/-- Creation of the `NamedTemporaryFile(delete=False)` input file:
entering the `with` block at app.py line 45 puts the file on disk
before the `try` of line 50 is reached. -/
def writeInFile (s : FsState) : FsState := { s with inFileExists := true }

/-- ffmpeg creating the output file at `in_path + ".wav"`. -/
def writeOutFile (s : FsState) : FsState := { s with outFileExists := true }

/-- Fallible local operations of `to_wav_mono16k`, inputs of the
model: whether `f_in.write(src_bytes)` raises (app.py line 46 — e.g.
a full disk; the file itself already exists at that point), and
whether each `os.remove` of the `finally` block raises even though
its file exists (the exception is swallowed, app.py lines 62-65). -/
structure NormFaults where
  writeInFails : Bool
  removeInFails : Bool
  removeOutFails : Bool
deriving DecidableEq, Repr

/-- Step `os.remove(in_path)` inside `try ... except Exception: pass`
(app.py lines 62-65): a missing file raises `FileNotFoundError`
(swallowed, still missing); an existing file is deleted unless the
removal itself raises, in which case the exception is swallowed and
the file remains. -/
def removeInFile (fails : Bool) (s : FsState) : FsState :=
  { s with inFileExists := s.inFileExists && fails }

/-- Step `os.remove(out_path)` inside `try ... except Exception:
pass`, with the same swallowed-failure behaviour as `removeInFile`. -/
def removeOutFile (fails : Bool) (s : FsState) : FsState :=
  { s with outFileExists := s.outFileExists && fails }

/-- The `finally` block of `to_wav_mono16k` (app.py lines 60-65):
`for p in (in_path, out_path): try os.remove(p) except: pass`. -/
def cleanupTemps (faults : NormFaults) (s : FsState) : FsState :=
  removeOutFile faults.removeOutFails (removeInFile faults.removeInFails s)

/-- Behaviour of the external `subprocess.run(cmd, check=True)` call
and the read-back of its output, an input of the model:
`exitZero out` — ffmpeg exited 0, wrote the output file, and reading
it back yields bytes that parse (or not) as `out`; `exitNonzero b` —
ffmpeg exited non-zero (`b` says whether it still created the output
file); `readFailure` — ffmpeg exited 0 and wrote the output file but
an unexpected error was raised while reading it back. -/
inductive DecodeOutcome
  | exitZero (out : WavParse)
  | exitNonzero (wroteOut : Bool)
  | readFailure
deriving DecidableEq, Repr

/-- Errors `to_wav_mono16k` can raise: the `RuntimeError` for a
missing ffmpeg (app.py line 43), the `subprocess.CalledProcessError`
for a non-zero exit (line 57), or an uncategorized exception. -/
inductive NormErr
  | unavailable
  | decodeFailed
  | unexpected
deriving DecidableEq, Repr

/-- Result of `to_wav_mono16k`: an exception or the decoded bytes
(represented by what `wave.open` will make of them). -/
inductive NormRes
  | err (e : NormErr)
  | ok (p : WavParse)
deriving DecidableEq, Repr

/-- Function `to_wav_mono16k` (app.py lines 41-65), returning its
result and the final state of its two temporary files. The
availability check runs before any file is created. The input temp
file is created at lines 45-47, before the `try` of line 50: if the
write into it raises, the exception propagates without any cleanup
running and the input file is left behind. Every path inside the
`try` runs the `finally` cleanup, whose removals swallow their own
failures. -/
def to_wav_mono16k (env : Env) (faults : NormFaults) (dec : DecodeOutcome) :
    NormRes × FsState :=
  if !ffmpeg_available env then (.err .unavailable, FsState.start)
  else
    let s1 := writeInFile FsState.start
    if faults.writeInFails then (.err .unexpected, s1)
    else
      match dec with
      | .exitZero out => (.ok out, cleanupTemps faults (writeOutFile s1))
      | .exitNonzero wrote =>
        (.err .decodeFailed,
         cleanupTemps faults (if wrote then writeOutFile s1 else s1))
      | .readFailure => (.err .unexpected, cleanupTemps faults (writeOutFile s1))

/-- The error messages the `stt` handler can return, with the data
the corresponding Python f-strings interpolate. -/
inductive ErrMsg
  | missingField
  | tooLarge (limitMb : Nat)
  | ffmpegMissing
  | decodeFailed
  | waveParse
  | valueErr (v : FormatViolation)
  | internal
deriving DecidableEq, Repr

/-- The human-readable message text of each error (app.py lines 130,
140, 43, 154, 203; the generic 500 branch stringifies the
exception). -/
def renderErr : ErrMsg → String
  | .missingField => "缺少文件字段 'audio'"
  | .tooLarge n => "文件过大，限制 " ++ toString n ++ "MB"
  | .ffmpegMissing => "未检测到 ffmpeg，请先安装（conda-forge 或 yum 源）"
  | .decodeFailed => "音频解码失败，请确认格式/编解码是否可被 ffmpeg 处理"
  | .waveParse => "WAV 解析失败"
  | .valueErr .notMono => "期望单声道 wav"
  | .valueErr .notS16 => "期望 16-bit PCM"
  | .valueErr .wrongRate => "期望采样率 " ++ toString SAMPLE_RATE
  | .internal => "internal error"

/-- Body of an `stt` response: either `{"error": ...}` or the success
payload (reduced to the fields the claims mention; the latency and
memory numbers are measured quantities outside the model). -/
inductive RespBody
  | err (m : ErrMsg)
  | ok (text : Str) (audioSeconds : ℚ) (fileBytes : Nat) (limitMb : Nat)
deriving DecidableEq, Repr

/-- One `POST /api/stt` request together with the behaviour of the
external capabilities it will consult. -/
structure SttRequest where
  env : Env
  hasAudio : Bool
  fileBytes : Nat
  faults : NormFaults
  decode : DecodeOutcome
deriving DecidableEq, Repr

/-- The `stt` view function (app.py lines 122-205): field and size
validation, decode, recognition, and the exception-to-status mapping
of lines 151-156 and 202-205. Returns `((status, body),
normalizerInvoked)` where the flag records whether `to_wav_mono16k`
was called. -/
def stt (req : SttRequest) : (Nat × RespBody) × Bool :=
  if !req.hasAudio then ((400, .err .missingField), false)
  else if MAX_CONTENT_LENGTH < req.fileBytes then
    ((400, .err (.tooLarge MAX_FILE_MB)), false)
  else
    match (to_wav_mono16k req.env req.faults req.decode).1 with
    | .err .decodeFailed => ((400, .err .decodeFailed), true)
    | .err .unavailable => ((500, .err .ffmpegMissing), true)
    | .err .unexpected => ((500, .err .internal), true)
    | .ok p =>
      match recognize_wav_bytes p with
      | (.err .waveParse, _) => ((400, .err .waveParse), true)
      | (.err (.formatErr v), _) => ((500, .err (.valueErr v)), true)
      | (.ok r, _) => ((200, .ok r.text r.seconds req.fileBytes MAX_FILE_MB), true)

/-- Status the propagation policy assigns to each error kind. -/
def statusOf : ErrMsg → Nat
  | .missingField => 400
  | .tooLarge _ => 400
  | .decodeFailed => 400
  | .waveParse => 400
  | .ffmpegMissing => 500
  | .valueErr _ => 500
  | .internal => 500

/-- The `GET /api/health` response (app.py lines 112-120). -/
structure HealthResp where
  ok : Bool
  ffmpeg : Bool
  model_path : String
  sample_rate : Nat
  max_file_mb : Nat
deriving DecidableEq, Repr

/-- The `health` view function (app.py lines 112-120). -/
def health (env : Env) : HealthResp :=
  { ok := true
    ffmpeg := ffmpeg_available env
    model_path := "models/vosk-model-small-cn-0.22"
    sample_rate := SAMPLE_RATE
    max_file_mb := MAX_FILE_MB }

/-- Whether `needle` occurs at the start of `hay`. -/
def leadsWith : Str → Str → Bool
  | [], _ => true
  | _ :: _, [] => false
  | a :: as, b :: bs => a == b && leadsWith as bs

/-- Whether `needle` occurs somewhere inside `hay`. -/
def containsSub (needle hay : Str) : Bool :=
  hay.tails.any (fun t => leadsWith needle t)

/-! Auxiliary lemmas about the Python string operations. -/

theorem dropWhile_append_of_ne_nil {α : Type} (p : α → Bool) (l m : List α)
    (h : l.dropWhile p ≠ []) : (l ++ m).dropWhile p = l.dropWhile p ++ m := by
  induction l with
  | nil => simp at h
  | cons a as ih =>
    by_cases ha : p a
    · rw [List.cons_append, List.dropWhile_cons_of_pos ha,
        List.dropWhile_cons_of_pos ha]
      exact ih (by rwa [List.dropWhile_cons_of_pos ha] at h)
    · rw [List.cons_append, List.dropWhile_cons_of_neg ha,
        List.dropWhile_cons_of_neg ha, List.cons_append]

theorem dropWhile_append_singleton {α : Type} (p : α → Bool) (c : α)
    (hc : p c = false) (l : List α) :
    (l ++ [c]).dropWhile p = l.dropWhile p ++ [c] := by
  induction l with
  | nil => simp [hc]
  | cons a as ih =>
    by_cases ha : p a
    · rw [List.cons_append, List.dropWhile_cons_of_pos ha,
        List.dropWhile_cons_of_pos ha]
      exact ih
    · rw [List.cons_append, List.dropWhile_cons_of_neg ha,
        List.dropWhile_cons_of_neg ha, List.cons_append]

theorem dropWhile_head_false {α : Type} (p : α → Bool) (l : List α) (e : α)
    (es : List α) (h : l.dropWhile p = e :: es) : p e = false := by
  induction l with
  | nil => simp at h
  | cons a as ih =>
    by_cases ha : p a
    · rw [List.dropWhile_cons_of_pos ha] at h
      exact ih h
    · rw [List.dropWhile_cons_of_neg ha] at h
      cases h
      simpa using ha

theorem stripR_cons_of_nonspace (c : Char) (hc : pySpace c = false) (t : Str) :
    stripR (c :: t) = c :: stripR t := by
  unfold stripR
  rw [List.reverse_cons, dropWhile_append_singleton pySpace c hc,
    List.reverse_append]
  simp

theorem pyStrip_cons_of_nonspace (c : Char) (hc : pySpace c = false) (t : Str) :
    pyStrip (c :: t) = c :: stripR t := by
  unfold pyStrip stripL
  rw [List.dropWhile_cons_of_neg (by simp [hc]), stripR_cons_of_nonspace c hc]

theorem pyStrip_cons_space (t : Str) : pyStrip (' ' :: t) = pyStrip t := by
  unfold pyStrip stripL
  rw [List.dropWhile_cons_of_pos (by rfl)]

theorem stripR_space_cons_of_nonspace (e : Char) (he : pySpace e = false)
    (es : Str) : stripR (' ' :: e :: es) = ' ' :: stripR (e :: es) := by
  have hne : ((e :: es).reverse).dropWhile pySpace ≠ [] := by
    rw [List.reverse_cons, dropWhile_append_singleton pySpace e he]
    simp
  unfold stripR
  rw [List.reverse_cons (a := ' ')]
  rw [dropWhile_append_of_ne_nil pySpace _ [' '] hne, List.reverse_append]
  simp

theorem joinSp_cons_head (c : Char) (x : Str) (rest : List Str) :
    joinSp ((c :: x) :: rest) = c :: joinSp (x :: rest) := by
  cases rest with
  | nil => rfl
  | cons r rs => simp [joinSp]

/-- The code's second normalization stage `" ".join(text.split())`
computes exactly the spec's "collapse every whitespace run to a
single space, then trim at both ends". -/
theorem joinSp_splitWs_eq_specNormalize (s : Str) :
    joinSp (splitWs s) = specNormalize s := by
  suffices h : ∀ (n : ℕ) (s : Str), s.length ≤ n →
      joinSp (splitWs s) = pyStrip (collapseRuns s) from
    h s.length s le_rfl
  intro n
  induction n with
  | zero =>
    intro s hs
    have hnil : s = [] := List.length_eq_zero.mp (Nat.le_zero.mp hs)
    subst hnil
    rw [splitWs.eq_1, collapseRuns.eq_1]
    rfl
  | succ n ih =>
    intro s hs
    match s with
    | [] =>
      rw [splitWs.eq_1, collapseRuns.eq_1]
      rfl
    | c :: cs =>
      by_cases hc : pySpace c
      · have h1 : splitWs (c :: cs) = splitWs (cs.dropWhile pySpace) := by
          rw [splitWs]
          simp [hc]
        have h2 : collapseRuns (c :: cs)
            = ' ' :: collapseRuns (cs.dropWhile pySpace) := by
          rw [collapseRuns]
          simp [hc]
        rw [h1, h2, pyStrip_cons_space]
        exact ih _ (le_trans ((List.dropWhile_sublist _).length_le)
          (Nat.le_of_succ_le_succ hs))
      · have hcF : pySpace c = false := by simpa using hc
        match cs with
        | [] =>
          rw [splitWs, collapseRuns]
          simp only [hcF, Bool.false_eq_true, if_false, List.takeWhile_nil,
            List.dropWhile_nil]
          rw [splitWs, collapseRuns, pyStrip_cons_of_nonspace c hcF]
          rfl
        | d :: ds =>
          by_cases hd : pySpace d
          · have h1 : splitWs (c :: d :: ds)
                = [c] :: splitWs (ds.dropWhile pySpace) := by
              rw [splitWs]
              simp only [hcF, Bool.false_eq_true, if_false]
              rw [List.takeWhile_cons_of_neg (by simp [hd]),
                List.dropWhile_cons_of_neg (by simp [hd])]
              rw [splitWs]
              simp [hd]
            have h2 : collapseRuns (c :: d :: ds)
                = c :: ' ' :: collapseRuns (ds.dropWhile pySpace) := by
              rw [collapseRuns]
              simp only [hcF, Bool.false_eq_true, if_false]
              rw [collapseRuns]
              simp [hd]
            have hlen : (ds.dropWhile pySpace).length ≤ n := by
              have h3 : ds.length + 2 ≤ n + 1 := by simpa using hs
              exact le_trans ((List.dropWhile_sublist _).length_le) (by omega)
            have hiu := ih (ds.dropWhile pySpace) hlen
            rw [h1, h2, pyStrip_cons_of_nonspace c hcF]
            cases hu : ds.dropWhile pySpace with
            | nil =>
              rw [hu] at hiu
              rw [splitWs.eq_1, collapseRuns.eq_1]
              rw [show stripR [' '] = ([] : Str) from by decide]
              rfl
            | cons e es =>
              have he : pySpace e = false := dropWhile_head_false pySpace ds e es hu
              rw [hu] at hiu
              have hsplitne : splitWs (e :: es)
                  = (e :: es.takeWhile (fun x => !pySpace x)) ::
                    splitWs (es.dropWhile (fun x => !pySpace x)) := by
                rw [splitWs]
                simp [he]
              have hcoll : collapseRuns (e :: es) = e :: collapseRuns es := by
                rw [collapseRuns]
                simp [he]
              have hL : joinSp ([c] :: splitWs (e :: es))
                  = c :: ' ' :: joinSp (splitWs (e :: es)) := by
                rw [hsplitne]
                rfl
              have hR : c :: stripR (' ' :: collapseRuns (e :: es))
                  = c :: ' ' :: e :: stripR (collapseRuns es) := by
                rw [hcoll, stripR_space_cons_of_nonspace e he,
                  stripR_cons_of_nonspace e he]
              have hL2 : joinSp ([c] :: splitWs (e :: es))
                  = c :: ' ' :: e :: stripR (collapseRuns es) := by
                rw [hL, hiu, hcoll, pyStrip_cons_of_nonspace e he]
              rw [hL2, hR]
          · have hdF : pySpace d = false := by simpa using hd
            have h1 : splitWs (c :: d :: ds)
                = (c :: d :: ds.takeWhile (fun x => !pySpace x)) ::
                  splitWs (ds.dropWhile (fun x => !pySpace x)) := by
              rw [splitWs]
              simp only [hcF, Bool.false_eq_true, if_false]
              rw [List.takeWhile_cons_of_pos (by simp [hdF]),
                List.dropWhile_cons_of_pos (by simp [hdF])]
            have h2 : splitWs (d :: ds)
                = (d :: ds.takeWhile (fun x => !pySpace x)) ::
                  splitWs (ds.dropWhile (fun x => !pySpace x)) := by
              rw [splitWs]
              simp only [hdF, Bool.false_eq_true, if_false]
            have hlen : (d :: ds).length ≤ n := by
              have h3 : ds.length + 2 ≤ n + 1 := by simpa using hs
              simpa using (by omega : ds.length + 1 ≤ n)
            have hid := ih (d :: ds) hlen
            have h3 : collapseRuns (c :: d :: ds)
                = c :: collapseRuns (d :: ds) := by
              rw [collapseRuns]
              simp [hcF]
            have h4 : collapseRuns (d :: ds) = d :: collapseRuns ds := by
              rw [collapseRuns]
              simp [hdF]
            rw [h1, joinSp_cons_head, ← h2, hid, h3,
              pyStrip_cons_of_nonspace c hcF, h4,
              pyStrip_cons_of_nonspace d hdF, stripR_cons_of_nonspace d hdF]

theorem recLoop_segs_pred (P : Str → Prop) (chunks : List EngineStep) :
    ∀ (finalText : Str), (∀ c ∈ chunks, P c.text) → P finalText →
      ∀ t ∈ (recLoop chunks finalText).2, P t := by
  induction chunks with
  | nil =>
    intro fin _ hf t ht
    by_cases hf0 : fin.isEmpty <;> simp [recLoop, hf0] at ht
    subst ht
    exact hf
  | cons c rest ih =>
    intro fin hc hf t ht
    have hrest := ih fin (fun x hx => hc x (List.mem_cons_of_mem _ hx)) hf
    by_cases hcc : c.accepted && !c.text.isEmpty
    · simp only [recLoop, hcc, if_true] at ht
      rcases List.mem_cons.mp ht with h1 | h1
      · subst h1
        exact hc c (List.mem_cons_self c rest)
      · exact hrest t h1
    · simp only [recLoop] at ht
      rw [if_neg (by simpa using hcc)] at ht
      exact hrest t ht

theorem filter_strip_empty (segs : List Str)
    (h : ∀ t ∈ segs, pyStrip t = []) :
    (segs.map pyStrip).filter (fun t => !t.isEmpty) = [] := by
  induction segs with
  | nil => rfl
  | cons a as ih =>
    have ha : pyStrip a = [] := h a (List.mem_cons_self a as)
    simp only [List.map_cons, List.filter, ha]
    exact ih (fun t ht => h t (List.mem_cons_of_mem _ ht))

theorem assembleText_nil_of_all_strip_empty (segs : List Str)
    (h : ∀ t ∈ segs, pyStrip t = []) : assembleText segs = [] := by
  unfold assembleText
  rw [filter_strip_empty segs h]
  show joinSp (splitWs (joinSp [])) = []
  rw [show joinSp ([] : List Str) = [] from rfl, splitWs.eq_1]
  rfl

/-! Claim theorems. -/

/-- Claim C1: for every sequence of transcript segments, the result
text of the assembly step equals the non-empty trimmed segment texts
concatenated in chunk-processing order separated by a single space,
with every whitespace run collapsed to a single space and
leading/trailing whitespace removed; in particular the collapse step
applied to a concatenation producing "你好   世界  " yields
"你好 世界". -/
theorem text_assembly_matches_spec :
    (∀ segs : List Str, assembleText segs = specAssemble segs)
    ∧ joinSp (splitWs ['你', '好', ' ', ' ', ' ', '世', '界', ' ', ' '])
      = ['你', '好', ' ', '世', '界'] := by
  constructor
  · intro segs
    exact joinSp_splitWs_eq_specNormalize _
  · simp +decide [splitWs, joinSp]

/-- Claim C3 counterexample: the input temp file is created (app.py
lines 45-47) before the `try` of line 50, so when the write into it
raises, `to_wav_mono16k` raises with the input file still on disk —
refuting "no temporary artifact remains on any unexpected error".
Likewise, when the `finally` does run but `os.remove(in_path)` fails,
the swallowed exception leaves the input file behind even on a
successful decode. -/
theorem temp_file_leak_counterexample :
    ((to_wav_mono16k ⟨true⟩ ⟨true, false, false⟩ (.exitZero .parseErr)).1
        = .err .unexpected
      ∧ (to_wav_mono16k ⟨true⟩ ⟨true, false, false⟩
          (.exitZero .parseErr)).2.inFileExists = true)
    ∧ ((to_wav_mono16k ⟨true⟩ ⟨false, true, false⟩ (.exitZero .parseErr)).1
        = .ok .parseErr
      ∧ (to_wav_mono16k ⟨true⟩ ⟨false, true, false⟩
          (.exitZero .parseErr)).2.inFileExists = true) := by
  exact ⟨⟨rfl, rfl⟩, ⟨rfl, rfl⟩⟩

/-- Claim C3 (amended): if the decoder executable is absent no
temporary file is ever created; on every exit path that enters the
protected region (successful decode, decode failure, or an
unexpected error after the input file was written) the `finally`
block attempts deletion of both temporary files, so a temporary file
survives only if its own removal failed (the failure being
swallowed); in particular both files are deleted whenever the
removals succeed. An error while writing the input temp file —
created before the protected region — leaves that file behind. -/
theorem to_wav_mono16k_cleanup_amended (env : Env) (faults : NormFaults)
    (dec : DecodeOutcome) :
    (ffmpeg_available env = false
      → (to_wav_mono16k env faults dec).2 = FsState.start)
    ∧ (faults.writeInFails = false →
        ((to_wav_mono16k env faults dec).2.inFileExists = true
          → faults.removeInFails = true)
        ∧ ((to_wav_mono16k env faults dec).2.outFileExists = true
          → faults.removeOutFails = true))
    ∧ (faults.writeInFails = false → faults.removeInFails = false
        → faults.removeOutFails = false
        → (to_wav_mono16k env faults dec).2 = FsState.start) := by
  rcases env with ⟨b⟩
  rcases faults with ⟨wf, rf, rof⟩
  cases b <;> cases wf <;> cases rf <;> cases rof <;>
    rcases dec with out | wrote | _ <;>
    (try cases wrote) <;>
    simp [to_wav_mono16k, ffmpeg_available, cleanupTemps, removeInFile,
      removeOutFile, writeInFile, writeOutFile, FsState.start]

/-- Claim C3 witness: with ffmpeg present and no local fault, a
successful decode leaves no temporary file. -/
theorem to_wav_mono16k_cleanup_amended_witness :
    (to_wav_mono16k ⟨true⟩ ⟨false, false, false⟩ (.exitZero .parseErr)).2
      = FsState.start :=
  (to_wav_mono16k_cleanup_amended ⟨true⟩ ⟨false, false, false⟩
    (.exitZero .parseErr)).2.2 rfl rfl rfl

/-- Claim C5: for all timing inputs, `cpu_percent_est` equals
`min(100, max(0, cpu_time_ms / wall_ms * 100 / num_cpus))`, lies in
`[0, 100]`, and equals `0` whenever `wall_ms = 0`. -/
theorem cpu_percent_est_formula (cpu : ℤ) (wall : ℕ) (n : ℕ) :
    cpu_percent_est cpu wall n
      = min 100 (max 0 ((cpu : ℚ) / (wall : ℚ) * 100 / (n : ℚ)))
    ∧ 0 ≤ cpu_percent_est cpu wall n
    ∧ cpu_percent_est cpu wall n ≤ 100
    ∧ (wall = 0 → cpu_percent_est cpu wall n = 0) := by
  by_cases h : 0 < wall
  · refine ⟨by rw [cpu_percent_est, if_pos h], ?_, ?_, fun h0 => absurd h0 (by omega)⟩
    · rw [cpu_percent_est, if_pos h]
      exact le_min (by norm_num) (le_max_left _ _)
    · rw [cpu_percent_est, if_pos h]
      exact min_le_left _ _
  · have h0 : wall = 0 := by omega
    subst h0
    have hval : cpu_percent_est cpu 0 n = 0 := by rw [cpu_percent_est, if_neg h]
    refine ⟨?_, by rw [hval], by rw [hval]; norm_num, fun _ => hval⟩
    rw [hval]
    rw [show ((0 : ℕ) : ℚ) = 0 from rfl, div_zero, zero_mul, zero_div]
    rw [max_self]
    exact (min_eq_right (by norm_num)).symm

/-- Claim C5 witness: at `wall_ms = 0` the estimate is `0`. -/
theorem cpu_percent_est_formula_witness : cpu_percent_est 5 0 3 = 0 :=
  (cpu_percent_est_formula 5 0 3).2.2.2 rfl

/-- Claim C2 counterexample: a boundary-committed result consisting
of a single space is non-empty as a raw string, so the loop appends
it to `result_text` (app.py line 92, `if partial:`) even though it is
empty after trimming — refuting "appended only if non-empty after
trimming". -/
theorem whitespace_commit_appended_counterexample :
    REvent.appendSeg [' '] ∈ (recLoop [⟨true, [' ']⟩] []).1
    ∧ pyStrip [' '] = [] := by decide

/-- Claim C2 (amended): the streaming loop submits every chunk until
the stream is exhausted, appends each boundary-signaled committed
result only if non-empty (raw, before trimming), then makes exactly
one final-result call after exhaustion whose text is appended if
non-empty, and never submits a chunk after the final-result call. -/
theorem streaming_protocol_amended (chunks : List EngineStep) (finalText : Str) :
    ∃ pre post,
      (recLoop chunks finalText).1 = pre ++ REvent.finalCall :: post
      ∧ REvent.finalCall ∉ pre
      ∧ post = (if finalText.isEmpty then [] else [REvent.appendFinal finalText])
      ∧ REvent.submitChunk ∉ post
      ∧ countSubmits pre = chunks.length
      ∧ (∀ t : Str, REvent.appendSeg t ∈ pre → t ≠ []) := by
  induction chunks with
  | nil =>
    refine ⟨[], if finalText.isEmpty then [] else [REvent.appendFinal finalText],
      rfl, by simp, rfl, ?_, rfl, by simp⟩
    split <;> simp
  | cons c rest ih =>
    obtain ⟨pre, post, htr, hpre, hpost, hsub, hcount, happ⟩ := ih
    by_cases hc : c.accepted && !c.text.isEmpty
    · have hstep : (recLoop (c :: rest) finalText).1
          = REvent.submitChunk :: REvent.appendSeg c.text ::
            (recLoop rest finalText).1 := by
        simp [recLoop, hc]
      have htext : c.text ≠ [] := by
        intro hnil
        rw [hnil] at hc
        simp at hc
      refine ⟨REvent.submitChunk :: REvent.appendSeg c.text :: pre, post,
        ?_, by simp [hpre], hpost, hsub, by simp [countSubmits, hcount], ?_⟩
      · rw [hstep, htr]
        rfl
      · intro t hmem
        rcases List.mem_cons.mp hmem with h1 | hmem
        · exact absurd h1 (by simp)
        · rcases List.mem_cons.mp hmem with h1 | hmem
          · cases h1
            exact htext
          · exact happ t hmem
    · have hstep : (recLoop (c :: rest) finalText).1
          = REvent.submitChunk :: (recLoop rest finalText).1 := by
        simp only [recLoop]
        rw [if_neg (by simpa using hc)]
      refine ⟨REvent.submitChunk :: pre, post,
        ?_, by simp [hpre], hpost, hsub, by simp [countSubmits, hcount], ?_⟩
      · rw [hstep, htr]
        rfl
      · intro t hmem
        rcases List.mem_cons.mp hmem with h1 | hmem
        · exact absurd h1 (by simp)
        · exact happ t hmem

/-- Claim C2 witness: the amended protocol at a concrete run with one
accepted chunk and a non-empty final text. -/
theorem streaming_protocol_amended_witness :
    ∃ pre post,
      (recLoop [⟨true, ['a']⟩] ['b']).1 = pre ++ REvent.finalCall :: post
      ∧ REvent.finalCall ∉ pre
      ∧ post = (if (['b'] : Str).isEmpty then []
          else [REvent.appendFinal ['b']])
      ∧ REvent.submitChunk ∉ post
      ∧ countSubmits pre = [(⟨true, ['a']⟩ : EngineStep)].length
      ∧ (∀ t : Str, REvent.appendSeg t ∈ pre → t ≠ []) :=
  streaming_protocol_amended [⟨true, ['a']⟩] ['b']

/-- Claim C9: the health endpoint's `ok` field is the constant `true`
regardless of decoder availability; only the `ffmpeg` field reflects
it. -/
theorem health_ok_constant (env : Env) :
    (health env).ok = true ∧ (health env).ffmpeg = env.ffmpegAvailable :=
  ⟨rfl, rfl⟩

/-- Claim C4: an uploaded blob whose byte length exceeds the 25 MB
limit is rejected with HTTP 400 and a message naming the limit, and
`to_wav_mono16k` is never invoked. -/
theorem oversized_upload_rejected (req : SttRequest)
    (ha : req.hasAudio = true) (hb : MAX_CONTENT_LENGTH < req.fileBytes) :
    stt req = ((400, .err (.tooLarge MAX_FILE_MB)), false)
    ∧ containsSub "25MB".toList (renderErr (.tooLarge MAX_FILE_MB)).toList
      = true := by
  refine ⟨?_, by decide⟩
  unfold stt
  rw [ha]
  simp [hb]

/-- Claim C4 witness: a request one byte over the limit. -/
theorem oversized_upload_rejected_witness :
    stt ⟨⟨true⟩, true, MAX_CONTENT_LENGTH + 1, ⟨false, false, false⟩,
        .exitZero .parseErr⟩
      = ((400, .err (.tooLarge MAX_FILE_MB)), false)
    ∧ containsSub "25MB".toList (renderErr (.tooLarge MAX_FILE_MB)).toList
      = true :=
  oversized_upload_rejected _ rfl (Nat.lt_succ_self _)

/-- Claim C6: if any wave-format attribute differs from mono /
16-bit / 16000 Hz, `recognize_wav_bytes` fails with a `ValueError`
naming a violated expectation and never instantiates or feeds the
recognition engine. -/
theorem format_checks_guard_engine (w : WavFile)
    (h : w.nchannels ≠ 1 ∨ w.sampwidth ≠ 2 ∨ w.framerate ≠ SAMPLE_RATE) :
    ∃ v, recognize_wav_bytes (.ok w) = (.err (.formatErr v), false)
      ∧ violatedAttr v w := by
  by_cases h1 : w.nchannels = 1
  · by_cases h2 : w.sampwidth = 2
    · by_cases h3 : w.framerate = SAMPLE_RATE
      · rcases h with h | h | h <;> contradiction
      · exact ⟨.wrongRate, by simp [recognize_wav_bytes, h1, h2, h3], h3⟩
    · exact ⟨.notS16, by simp [recognize_wav_bytes, h1, h2], h2⟩
  · exact ⟨.notMono, by simp [recognize_wav_bytes, h1], h1⟩

/-- Claim C6 witness: a two-channel wave file is refused with the
engine untouched. -/
theorem format_checks_guard_engine_witness :
    ∃ v, recognize_wav_bytes (.ok ⟨2, 2, 16000, 0, [], []⟩)
      = (.err (.formatErr v), false)
      ∧ violatedAttr v ⟨2, 2, 16000, 0, [], []⟩ :=
  format_checks_guard_engine _ (Or.inl (by decide))

/-- Claim C8: on a format-valid waveform the pipeline's
`audio_seconds` equals `frame_count / sample_rate`, and if the engine
commits no text that survives trimming the result text is empty
while the duration is still `frame_count / sample_rate`. -/
theorem audio_seconds_and_silent_text (w : WavFile)
    (h1 : w.nchannels = 1) (h2 : w.sampwidth = 2)
    (h3 : w.framerate = SAMPLE_RATE) :
    ∃ r, recognize_wav_bytes (.ok w) = (.ok r, true)
      ∧ r.seconds = (w.nframes : ℚ) / (w.framerate : ℚ)
      ∧ ((∀ c ∈ w.chunks, pyStrip c.text = []) → pyStrip w.finalText = []
          → r.text = []) := by
  refine ⟨⟨assembleText (recLoop w.chunks w.finalText).2,
      (w.nframes : ℚ) / (w.framerate : ℚ)⟩, ?_, rfl, ?_⟩
  · simp [recognize_wav_bytes, h1, h2, h3]
  · intro hc hf
    exact assembleText_nil_of_all_strip_empty _
      (recLoop_segs_pred (fun t => pyStrip t = []) w.chunks w.finalText hc hf)

/-- Claim C8 witness: a 3-second silent waveform (48000 frames at
16 kHz) yields an empty text and a 3-second duration. -/
theorem audio_seconds_and_silent_text_witness :
    ∃ r, recognize_wav_bytes (.ok ⟨1, 2, 16000, 48000, [], []⟩)
      = (.ok r, true)
      ∧ r.seconds = ((48000 : ℚ)) / ((16000 : ℚ))
      ∧ ((∀ c ∈ ([] : List EngineStep), pyStrip c.text = [])
          → pyStrip ([] : Str) = [] → r.text = []) := by
  have h := audio_seconds_and_silent_text ⟨1, 2, 16000, 48000, [], []⟩ rfl rfl rfl
  simpa using h

/-- Claim C10: a blob of exactly `25 * 1024 * 1024` bytes passes the
strict size check: the normalizer is invoked and the response is not
the too-large rejection. -/
theorem size_limit_strict_inequality (req : SttRequest)
    (ha : req.hasAudio = true) (hb : req.fileBytes = MAX_CONTENT_LENGTH) :
    (stt req).2 = true
    ∧ (stt req).1.2 ≠ .err (.tooLarge MAX_FILE_MB) := by
  have hnot : ¬ MAX_CONTENT_LENGTH < req.fileBytes := by
    rw [hb]
    exact lt_irrefl _
  constructor <;>
    · unfold stt
      rw [ha]
      rw [if_neg (by simp), if_neg hnot]
      split <;> first | (split <;> simp) | simp

/-- Claim C10 witness: a request of exactly the limit with a decoder
whose output fails wave parsing still reaches the normalizer. -/
theorem size_limit_strict_inequality_witness :
    (stt ⟨⟨true⟩, true, MAX_CONTENT_LENGTH, ⟨false, false, false⟩,
        .exitZero .parseErr⟩).2 = true
    ∧ (stt ⟨⟨true⟩, true, MAX_CONTENT_LENGTH, ⟨false, false, false⟩,
        .exitZero .parseErr⟩).1.2
      ≠ .err (.tooLarge MAX_FILE_MB) :=
  size_limit_strict_inequality _ rfl rfl

/-- Claim C7: the normalizer raises its `RuntimeError`
(DecodeUnavailable) exactly when ffmpeg is absent and
`CalledProcessError` (DecodeFailed) exactly when the decoder exits
non-zero; the handler surfaces MissingField, FileTooLarge,
DecodeFailed and WaveParseError as 400 and unavailability or
uncategorized failures as 500; and every error response carries an
error body and no result fields. -/
theorem error_taxonomy_and_propagation :
    (∀ (env : Env) (faults : NormFaults) (dec : DecodeOutcome),
      (to_wav_mono16k env faults dec).1 = .err .unavailable
        ↔ ffmpeg_available env = false)
    ∧ (∀ (env : Env) (faults : NormFaults) (dec : DecodeOutcome),
      (to_wav_mono16k env faults dec).1 = .err .decodeFailed
        ↔ (ffmpeg_available env = true ∧ faults.writeInFails = false
            ∧ ∃ b, dec = .exitNonzero b))
    ∧ (∀ (req : SttRequest) (m : ErrMsg),
      (stt req).1.2 = .err m → (stt req).1.1 = statusOf m)
    ∧ (∀ req : SttRequest,
      (stt req).1.1 ≠ 200 → ∃ m, (stt req).1.2 = .err m)
    ∧ (∀ (req : SttRequest) (m : ErrMsg),
      (stt req).1.2 = .err m → (stt req).1.1 ≠ 200) := by
  refine ⟨?_, ?_, ?_, ?_, ?_⟩
  · intro env faults dec
    rcases env with ⟨eb⟩
    rcases faults with ⟨wf, rf, rof⟩
    cases eb <;> cases wf <;> cases dec <;>
      simp [to_wav_mono16k, ffmpeg_available]
  · intro env faults dec
    rcases env with ⟨eb⟩
    rcases faults with ⟨wf, rf, rof⟩
    cases eb <;> cases wf <;> cases dec <;>
      simp [to_wav_mono16k, ffmpeg_available]
  · intro req m
    unfold stt
    split
    · intro h
      simp at h
      subst h
      rfl
    · split
      · intro h
        simp at h
        subst h
        rfl
      · split
        · intro h
          simp at h
          subst h
          rfl
        · intro h
          simp at h
          subst h
          rfl
        · intro h
          simp at h
          subst h
          rfl
        · split
          · intro h
            simp at h
            subst h
            rfl
          · intro h
            simp at h
            subst h
            rfl
          · intro h
            simp at h
  · intro req
    unfold stt
    split
    · intro h
      exact ⟨_, rfl⟩
    · split
      · intro h
        exact ⟨_, rfl⟩
      · split
        · intro h
          exact ⟨_, rfl⟩
        · intro h
          exact ⟨_, rfl⟩
        · intro h
          exact ⟨_, rfl⟩
        · split
          · intro h
            exact ⟨_, rfl⟩
          · intro h
            exact ⟨_, rfl⟩
          · intro h
            simp at h
  · intro req m
    unfold stt
    split
    · intro h
      simp
    · split
      · intro h
        simp
      · split
        · intro h
          simp
        · intro h
          simp
        · intro h
          simp
        · split
          · intro h
            simp
          · intro h
            simp
          · intro h
            simp at h

/-- Claim C7 witness: with ffmpeg absent, `to_wav_mono16k` raises the
DecodeUnavailable error. -/
theorem error_taxonomy_and_propagation_witness :
    (to_wav_mono16k ⟨false⟩ ⟨false, false, false⟩ (.exitZero .parseErr)).1
      = .err .unavailable :=
  (error_taxonomy_and_propagation.1 ⟨false⟩ ⟨false, false, false⟩
    (.exitZero .parseErr)).mpr rfl

end AsrApp
